import Mathlib

/-
Verification development for the workflow orchestration engine in
src/src/agents/orchestrator.py (class Orchestrator).

The embedding models Python values with a JSON-like inductive type.
Python dicts are insertion-ordered association lists with string keys and
no duplicate keys (the only keys the orchestrator ever creates or reads
are strings).  Statements that can raise a Python exception inside the
executor (TypeError from comparisons, AttributeError from calling dict
methods on non-dicts, KeyError from missing subscripts) are modelled with
Except Unit; the top of execute_workflow catches them, matching the
try/except wrapper at orchestrator.py lines 218-302.
-/

namespace Ape

/-- Python runtime values as used by the orchestrator: None, bool, int,
str, list, dict (string-keyed, insertion ordered). -/
inductive Value where
  | vNull : Value
  | vBool (b : Bool) : Value
  | vInt (n : Int) : Value
  | vStr (s : String) : Value
  | vList (xs : List Value) : Value
  | vDict (d : List (String × Value)) : Value

/-- A Python dict with string keys. -/
abbrev Dict := List (String × Value)

/-- Lookup in an association list (Python `d[k]` / `d.get(k)`), first
binding wins; dicts built by aset never hold duplicate keys. -/
def aget {α : Type} (d : List (String × α)) (k : String) : Option α :=
  match d with
  | [] => none
  | (k', v) :: rest => if k' = k then some v else aget rest k

/-- Python `k in d` for a dict. -/
def amem {α : Type} (d : List (String × α)) (k : String) : Bool :=
  (aget d k).isSome

/-- Python `d[k] = v`: replaces in place if the key exists (keeping its
position, as CPython dicts do), appends otherwise. -/
def aset {α : Type} (d : List (String × α)) (k : String) (v : α) :
    List (String × α) :=
  match d with
  | [] => [(k, v)]
  | (k', v') :: rest =>
    if k' = k then (k, v) :: rest else (k', v') :: aset rest k v

/-- Python `base.update(ps)`: fold the pairs of ps into base in order. -/
def updatePairs (base : Dict) (ps : Dict) : Dict :=
  ps.foldl (fun d kv => aset d kv.1 kv.2) base

/-- Python truthiness of a value (`bool(v)`). -/
def truthy : Value → Bool
  | .vNull => false
  | .vBool b => b
  | .vInt n => n != 0
  | .vStr s => !s.isEmpty
  | .vList xs => !xs.isEmpty
  | .vDict d => !d.isEmpty

/-- Numeric view: Python treats bool as int for == and <. -/
def pyNum : Value → Option Int
  | .vBool b => some (if b then 1 else 0)
  | .vInt n => some n
  | _ => none

mutual
/-- Python `==` on the modelled values (numeric bool/int cross-equality,
structural lists, order-insensitive dicts); never raises. -/
def pyEq : Value → Value → Bool
  | .vNull, .vNull => true
  | .vStr a, .vStr b => a == b
  | .vList xs, .vList ys => pyEqList xs ys
  | .vDict d1, .vDict d2 => d1.length == d2.length && pyEqDictSub d1 d2
  | a, b =>
    match pyNum a, pyNum b with
    | some m, some n => m == n
    | _, _ => false

/-- Elementwise list equality. -/
def pyEqList : List Value → List Value → Bool
  | [], [] => true
  | x :: xs, y :: ys => pyEq x y && pyEqList xs ys
  | _, _ => false

/-- Every binding of the first dict equals the second dict's binding. -/
def pyEqDictSub : List (String × Value) → List (String × Value) → Bool
  | [], _ => true
  | (k, v) :: rest, d2 =>
    (match aget d2 k with
     | some w => pyEq v w
     | none => false) && pyEqDictSub rest d2
end

/-- Lexicographic char-list comparison by code points. -/
def strLtAux : List Char → List Char → Bool
  | [], [] => false
  | [], _ :: _ => true
  | _ :: _, [] => false
  | x :: xs, y :: ys =>
    if x = y then strLtAux xs ys else decide (x.toNat < y.toNat)

/-- Python `a < b` for strings (code-point lexicographic). -/
def pyStrLt (a b : String) : Bool := strLtAux a.toList b.toList

/-- Python `s.startswith(p)`. -/
def strStartsWith (s p : String) : Bool := p.toList.isPrefixOf s.toList

/-- Python `s.endswith(p)`. -/
def strEndsWith (s p : String) : Bool :=
  p.toList.reverse.isPrefixOf s.toList.reverse

/-- Python `s[n:]` for a string. -/
def strDrop (s : String) (n : Nat) : String := String.mk (s.toList.drop n)

/-- Python `s[:-1]` for a string. -/
def strDropLast (s : String) : String := String.mk s.toList.dropLast

/-- Python `c in s` for a single char. -/
def strContainsChar (s : String) (c : Char) : Bool := s.toList.contains c

/-- Split accumulator for splitChar. -/
def splitCharAux (c : Char) : List Char → List Char → List String
  | [], acc => [String.mk acc.reverse]
  | x :: t, acc =>
    if x = c then String.mk acc.reverse :: splitCharAux c t []
    else splitCharAux c t (x :: acc)

/-- Python `s.split(c)` for a one-char separator: the empty string
splits to a single empty piece, and empty pieces are kept. -/
def splitChar (c : Char) (s : String) : List String :=
  splitCharAux c s.toList []

mutual
/-- Python `a < b` on the modelled values; none models a TypeError
(unordered operands, e.g. None, dicts or mixed types). -/
def pyLt : Value → Value → Option Bool
  | .vStr a, .vStr b => some (pyStrLt a b)
  | .vList xs, .vList ys => pyLtList xs ys
  | a, b =>
    match pyNum a, pyNum b with
    | some m, some n => some (decide (m < n))
    | _, _ => none

/-- Lexicographic list comparison: skip ==-equal heads, then compare. -/
def pyLtList : List Value → List Value → Option Bool
  | [], [] => some false
  | [], _ :: _ => some true
  | _ :: _, [] => some false
  | x :: xs, y :: ys => if pyEq x y then pyLtList xs ys else pyLt x y
end

/-- Python `a > b` (for the orderable builtin types, a > b iff b < a). -/
def pyGt (a b : Value) : Option Bool := pyLt b a

/-- Substring test on char lists. -/
def strContainsAux (needle : List Char) : List Char → Bool
  | [] => needle.isEmpty
  | c :: t => needle.isPrefixOf (c :: t) || strContainsAux needle t

/-- Python `needle in hay` for strings. -/
def strContains (hay needle : String) : Bool :=
  strContainsAux needle.toList hay.toList

/-- Dotted-path walk used by template resolution and condition paths
(orchestrator.py lines 247-252 and 337-341, 349-353): step into nested
dicts, none as soon as the current value is not a dict holding the part. -/
def walk (v : Value) (parts : List String) : Option Value :=
  match parts with
  | [] => some v
  | p :: rest =>
    match v with
    | .vDict d =>
      match aget d p with
      | some v' => walk v' rest
      | none => none
    | _ => none

/-- Comparison dispatch of _evaluate_condition (orchestrator.py lines
357-374): the if/elif chain on the operator; a TypeError from an
unordered < / > or an unhashable dict-membership probe is .error. -/
def apply_operator (operator actual expected : Value) : Except Unit Bool :=
  match operator with
  | .vStr "eq" => .ok (pyEq actual expected)
  | .vStr "ne" => .ok (!pyEq actual expected)
  | .vStr "gt" =>
    match pyGt actual expected with
    | some b => .ok b
    | none => .error ()
  | .vStr "lt" =>
    match pyLt actual expected with
    | some b => .ok b
    | none => .error ()
  | .vStr "contains" =>
    match actual with
    | .vStr a =>
      match expected with
      | .vStr e => .ok (strContains a e)
      | _ => .ok false
    | .vList xs => .ok (xs.any (fun x => pyEq x expected))
    | .vDict d =>
      match expected with
      | .vList _ => .error ()
      | .vDict _ => .error ()
      | .vStr e => .ok (d.any (fun kv => kv.1 == e))
      | _ => .ok false
    | _ => .ok false
  | .vStr "exists" =>
    .ok (match actual with | .vNull => false | _ => true)
  | _ => .ok false

/-- Embeds Orchestrator._evaluate_condition (orchestrator.py lines
304-386).  Missing path segments return false early; unknown types,
functions and operators fall through to the final return False; a
non-dict condition or a non-string value field raises (.error), exactly
where the Python attribute accesses would. -/
def evaluate_condition (condition : Value) (context stepResult : Dict) :
    Except Unit Bool :=
  match condition with
  | .vDict c =>
    match (aget c "type").getD (.vStr "simple") with
    | .vStr "simple" =>
      match (aget c "value").getD (.vStr "") with
      | .vStr valuePath =>
        let expected := (aget c "expected").getD .vNull
        let operator := (aget c "operator").getD (.vStr "eq")
        if strStartsWith valuePath "result." then
          match walk (.vDict stepResult) (splitChar '.' (strDrop valuePath 7)) with
          | none => .ok false
          | some actual => apply_operator operator actual expected
        else if strStartsWith valuePath "context." then
          match walk (.vDict context) (splitChar '.' (strDrop valuePath 8)) with
          | none => .ok false
          | some actual => apply_operator operator actual expected
        else
          apply_operator operator .vNull expected
      | _ => .error ()
    | .vStr "custom" =>
      match (aget c "function").getD (.vStr "") with
      | .vStr "all_success" =>
        .ok (truthy ((aget stepResult "success").getD (.vBool false)))
      | .vStr "has_data" =>
        .ok (amem stepResult "data" &&
             truthy ((aget stepResult "data").getD .vNull))
      | _ => .ok false
    | _ => .ok false
  | _ => .error ()

/-- Template substitution for one parameter value (orchestrator.py lines
234-255): a string of shape dollar-brace path close-brace is resolved
first as a direct context key, then, when the path holds a dot, as a
nested walk from the context root; anything unresolved is left as the
literal value. -/
def resolve_template (ctx : Dict) (v : Value) : Value :=
  match v with
  | .vStr s =>
    if strStartsWith s "$\x7b" && strEndsWith s "\x7d" then
      let templateKey := strDropLast (strDrop s 2)
      match aget ctx templateKey with
      | some w => w
      | none =>
        if strContainsChar templateKey '.' then
          match walk (.vDict ctx) (splitChar '.' templateKey) with
          | some w => w
          | none => v
        else v
    else v
  | _ => v

/-- An agent's process method: request dict to response dict, per the
BaseAgent contract.  An agent that raises is equivalent, through the
try/except of execute_agent, to one returning the failure dict. -/
abbrev AgentFun := Dict → Dict

/-- The agent registry (Orchestrator.registered_agents). -/
abbrev Agents := List (String × AgentFun)

/-- The failure dict built by the except branch of execute_agent
(orchestrator.py lines 138-147). -/
def agentErrorDict (name : String) (md : Dict) : Dict :=
  [("success", .vBool false),
   ("error", .vStr ("Error executing agent " ++ name)),
   ("_metadata", .vDict md)]

/-- The successful path of execute_agent for a registered agent
(orchestrator.py lines 115-137): attach request metadata, call process,
merge response metadata.  md abstracts the session id / timestamp / agent
dict the source builds; a non-dict _metadata in the response makes the
in-place .update raise, landing in the except branch. -/
def agent_response (f : AgentFun) (md : Dict) (name : String)
    (request : Dict) : Dict :=
  let raw := f (aset request "_metadata" (.vDict md))
  match aget raw "_metadata" with
  | some (.vDict d0) => aset raw "_metadata" (.vDict (updatePairs d0 md))
  | none => aset raw "_metadata" (.vDict md)
  | some _ => agentErrorDict name md

/-- Embeds Orchestrator.execute_agent (orchestrator.py lines 99-147),
called with the step's raw agent value.  The not-in-registry membership
test raises on unhashable values; hashable non-strings are simply absent
from the string-keyed registry. -/
def execute_agent (ag : Agents) (md : Dict) (nameVal : Value)
    (request : Dict) : Except Unit Dict :=
  match nameVal with
  | .vStr n =>
    match aget ag n with
    | none =>
      .ok [("success", .vBool false),
           ("error", .vStr ("Agent not found: " ++ n))]
    | some f => .ok (agent_response f md n request)
  | .vList _ => .error ()
  | .vDict _ => .error ()
  | _ =>
    .ok [("success", .vBool false), ("error", .vStr "Agent not found")]

/-- A registered workflow (orchestrator.py lines 179-183). -/
structure Workflow where
  id : String
  steps : List Value
  metadata : Dict

/-- The orchestrator state the claims touch: the agent registry and the
workflow registry (llm_service, session_data and session_id carry no
engine-level state the claims mention). -/
structure Orchestrator where
  agents : Agents
  workflows : List (String × Workflow)

/-- How one step iteration ends: fall through to the next step, break out
of the loop, or raise into the top-level except. -/
inductive StepOutcome where
  | cont : StepOutcome
  | term : StepOutcome
  | err : StepOutcome

/-- Result of one iteration of the step loop: the step object after any
in-place parameter mutation, the trace entry if the append was reached,
the context after any output_key write, and how the iteration ended. -/
structure StepRes where
  newStep : Value
  entry : Option Dict
  newCtx : Dict
  outcome : StepOutcome

/-- Accumulated result of the step loop: the trace, the final context,
the (possibly mutated in place) step list, and whether it raised. -/
structure RunOut where
  entries : List Dict
  finalCtx : Dict
  steps : List Value
  errored : Bool

/-- Lines 221-258 of execute_workflow: read agent and action, resolve
parameter templates (mutating the step's parameters dict in place — the
returned step reflects the mutation), and build the request dict. -/
def prepareStep (ctx : Dict) (s : Dict) :
    Except Unit (Value × Value × Dict × Dict) :=
  match aget s "agent" with
  | none => .error ()
  | some agentVal =>
    match aget s "action" with
    | none => .error ()
    | some actionVal =>
      match aget s "parameters" with
      | none => .ok (agentVal, actionVal, s, [("action", actionVal)])
      | some (.vDict params) =>
        let rp := params.map (fun kv => (kv.1, resolve_template ctx kv.2))
        .ok (agentVal, actionVal, aset s "parameters" (.vDict rp),
             updatePairs [("action", actionVal)] rp)
      | some _ => .error ()

/-- Lines 272-275 of execute_workflow: a truthy success with a declared
output_key stores the result's data payload (default empty dict) under
that key.  Non-string output keys fall outside the string-keyed context
model and are mapped to .error. -/
def applyOutputKey (s : Dict) (resp : Dict) (ctx : Dict) :
    Except Unit Dict :=
  if amem s "output_key" && truthy ((aget resp "success").getD (.vBool false))
  then
    match (aget s "output_key").getD .vNull with
    | .vStr k => .ok (aset ctx k ((aget resp "data").getD (.vDict [])))
    | _ => .error ()
  else .ok ctx

/-- Python step.get of on_failure compared with the string terminate
(orchestrator.py lines 280 and 284). -/
def onFailureTerminate (s : Dict) : Bool :=
  pyEq ((aget s "on_failure").getD (.vStr "terminate")) (.vStr "terminate")

/-- Lines 277-285 of execute_workflow: break when a declared condition
evaluates falsy with on_failure terminate, or when the step result's
success is falsy with on_failure terminate. -/
def stepVerdict (s : Dict) (ctx : Dict) (resp : Dict) (rawSucc : Value) :
    Except Unit Bool :=
  match aget s "condition" with
  | some c =>
    match evaluate_condition c ctx resp with
    | .error e => .error e
    | .ok b =>
      if !b && onFailureTerminate s then .ok true
      else .ok (!truthy rawSucc && onFailureTerminate s)
  | none => .ok (!truthy rawSucc && onFailureTerminate s)

/-- The trace entry appended at lines 264-270 of execute_workflow. -/
def stepEntry (i : Nat) (agentVal actionVal rawSucc : Value)
    (resp : Dict) : Dict :=
  [("step", .vInt i), ("agent", agentVal), ("action", actionVal),
   ("success", rawSucc), ("result", .vDict resp)]

/-- One iteration of the step loop of execute_workflow (lines 220-285).
A non-dict step raises at the first subscript. -/
def execStep (ag : Agents) (md : Dict) (ctx : Dict) (i : Nat)
    (sv : Value) : StepRes :=
  match sv with
  | .vDict s =>
    match prepareStep ctx s with
    | .error _ => ⟨sv, none, ctx, .err⟩
    | .ok (agentVal, actionVal, s', req) =>
      match execute_agent ag md agentVal req with
      | .error _ => ⟨.vDict s', none, ctx, .err⟩
      | .ok resp =>
        let rawSucc := (aget resp "success").getD (.vBool false)
        let entry := stepEntry i agentVal actionVal rawSucc resp
        match applyOutputKey s' resp ctx with
        | .error _ => ⟨.vDict s', some entry, ctx, .err⟩
        | .ok ctx' =>
          match stepVerdict s' ctx' resp rawSucc with
          | .error _ => ⟨.vDict s', some entry, ctx', .err⟩
          | .ok halt =>
            ⟨.vDict s', some entry, ctx', if halt then .term else .cont⟩
  | _ => ⟨sv, none, ctx, .err⟩

/-- The step loop of execute_workflow: walk the steps in order, stop on a
break, surface a raise to the caller with the partial trace. -/
def runSteps (ag : Agents) (md : Dict) :
    List Value → Nat → Dict → RunOut
  | [], _, ctx => ⟨[], ctx, [], false⟩
  | sv :: rest, i, ctx =>
    let r := execStep ag md ctx i sv
    match r.outcome with
    | .err => ⟨r.entry.toList, r.newCtx, r.newStep :: rest, true⟩
    | .term => ⟨r.entry.toList, r.newCtx, r.newStep :: rest, false⟩
    | .cont =>
      let R := runSteps ag md rest (i + 1) r.newCtx
      ⟨r.entry.toList ++ R.entries, R.finalCtx, r.newStep :: R.steps,
       R.errored⟩

/-- Lines 208-216 of execute_workflow: context defaults to a fresh dict,
and a truthy input_data is seeded under the key input (a None or empty
input dict seeds nothing, per the Python truthiness test). -/
def seedContext (context inputData : Option Dict) : Dict :=
  let ctx := context.getD []
  match inputData with
  | some d => if d.isEmpty then ctx else aset ctx "input" (.vDict d)
  | none => ctx

/-- The workflow execution outcome dict; Option fields model key
presence (error paths omit context, the not-found path omits both
results and context). -/
structure Outcome where
  success : Bool
  error : Option String := none
  results : Option (List Dict) := none
  context : Option Dict := none

/-- Embeds Orchestrator.execute_workflow (orchestrator.py lines
187-302).  md abstracts the per-call metadata dict.  Because the step
dicts are aliased between the registry and the loop, the in-place
parameter mutations made by template resolution are written back into
the registry entry, and survive an exception. -/
def execute_workflow (st : Orchestrator) (md : Dict) (workflowId : String)
    (inputData context : Option Dict) : Outcome × Orchestrator :=
  match aget st.workflows workflowId with
  | none =>
    ({ success := false,
       error := some ("Workflow not found: " ++ workflowId) }, st)
  | some wf =>
    let ctx0 := seedContext context inputData
    let R := runSteps st.agents md wf.steps 0 ctx0
    let st' := { st with
      workflows := aset st.workflows workflowId { wf with steps := R.steps } }
    if R.errored then
      ({ success := false,
         error := some ("Error executing workflow " ++ workflowId),
         results := some R.entries }, st')
    else
      ({ success := R.entries.all
           (fun e => truthy ((aget e "success").getD .vNull)),
         results := some R.entries,
         context := some R.finalCtx }, st')

/-- Python `k in step` inside the validation loop of register_workflow:
key membership for a dict, substring for a string, value membership for a
list, TypeError otherwise. -/
def stepHasKey (sv : Value) (k : String) : Except Unit Bool :=
  match sv with
  | .vDict d => .ok (amem d k)
  | .vStr s => .ok (strContains s k)
  | .vList xs => .ok (xs.any (fun x => pyEq x (.vStr k)))
  | _ => .error ()

/-- Python `step["agent"]` after the membership check: only dict steps
subscript by a string without raising. -/
def stepAgent (sv : Value) : Except Unit Value :=
  match sv with
  | .vDict d =>
    match aget d "agent" with
    | some v => .ok v
    | none => .error ()
  | _ => .error ()

/-- Python `agent_name not in self.registered_agents` (negated): raises
on unhashable values, otherwise membership among the string keys. -/
def agentNameInRegistry (ag : Agents) (v : Value) : Except Unit Bool :=
  match v with
  | .vStr n => .ok (amem ag n)
  | .vList _ => .error ()
  | .vDict _ => .error ()
  | _ => .ok false

/-- The validation loop of register_workflow (orchestrator.py lines
170-176): each step needs agent and action keys and a registered agent. -/
def validateSteps (ag : Agents) : List Value → Except Unit Bool
  | [] => .ok true
  | s :: rest =>
    match stepHasKey s "agent" with
    | .error e => .error e
    | .ok hasAgent =>
      if !hasAgent then .ok false
      else
        match stepHasKey s "action" with
        | .error e => .error e
        | .ok hasAction =>
          if !hasAction then .ok false
          else
            match stepAgent s with
            | .error e => .error e
            | .ok agentVal =>
              match agentNameInRegistry ag agentVal with
              | .error e => .error e
              | .ok registered =>
                if !registered then .ok false
                else validateSteps ag rest

/-- Embeds Orchestrator.register_workflow (orchestrator.py lines
149-185): reject an existing id, validate every step, then store the
workflow — the registry is only written after all validation passed. -/
def register_workflow (st : Orchestrator) (workflowId : String)
    (workflowSteps : List Value) (metadata : Option Dict) :
    Except Unit (Bool × Orchestrator) :=
  if amem st.workflows workflowId then .ok (false, st)
  else
    match validateSteps st.agents workflowSteps with
    | .error e => .error e
    | .ok ok =>
      if !ok then .ok (false, st)
      else
        .ok (true, { st with
          workflows := st.workflows ++
            [(workflowId,
              { id := workflowId, steps := workflowSteps,
                metadata := metadata.getD [] })] })

/-- Index of the first occurrence of a char (Python str.find). -/
def firstIdxAux (c : Char) : List Char → Nat → Option Nat
  | [], _ => none
  | x :: t, i => if x = c then some i else firstIdxAux c t (i + 1)

/-- Python `text.find(c)` as an Option. -/
def firstIdx (c : Char) (s : String) : Option Nat :=
  firstIdxAux c s.toList 0

/-- Scan keeping the last seen occurrence (Python str.rfind). -/
def lastIdxAux (c : Char) : List Char → Nat → Option Nat → Option Nat
  | [], _, acc => acc
  | x :: t, i, acc =>
    lastIdxAux c t (i + 1) (if x = c then some i else acc)

/-- Python `text.rfind(c)` as an Option. -/
def lastIdx (c : Char) (s : String) : Option Nat :=
  lastIdxAux c s.toList 0 none

/-- Python `text[a : b + 1]` by char indices (empty when a exceeds b). -/
def pySlice (s : String) (a b : Nat) : String :=
  String.mk ((s.toList.drop a).take (b + 1 - a))

/-- Embeds Orchestrator._extract_json_from_text (orchestrator.py lines
475-505), parameterised by the json.loads library call (jsonLoads, an
external collaborator; .error is its json.JSONDecodeError).  First
bracket pair wins; otherwise the first-to-last brace pair is parsed and
wrapped in a one-element list; otherwise ValueError. -/
def extract_json_from_text (jsonLoads : String → Except Unit Value)
    (text : String) : Except Unit Value :=
  match firstIdx '[' text, lastIdx ']' text with
  | some a, some b => jsonLoads (pySlice text a b)
  | _, _ =>
    match firstIdx '\x7b' text, lastIdx '\x7d' text with
    | some a, some b => (jsonLoads (pySlice text a b)).map (fun v => .vList [v])
    | _, _ => .error ()

/-- Python `for step in workflow_plan` over an arbitrary parsed value:
lists iterate elements, strings iterate one-char strings, dicts iterate
keys, anything else raises TypeError. -/
def planSteps (plan : Value) : Except Unit (List Value) :=
  match plan with
  | .vList xs => .ok xs
  | .vStr s => .ok (s.toList.map (fun c => .vStr (String.mk [c])))
  | .vDict d => .ok (d.map (fun kv => Value.vStr kv.1))
  | _ => .error ()

/-- The planner's returned dict (success path carries workflow_id,
steps and query in data; failure paths carry an error message). -/
structure PlanOut where
  success : Bool
  error : Option String := none
  workflowId : Option String := none
  steps : Option Value := none

/-- Embeds Orchestrator.plan_workflow (orchestrator.py lines 450-473)
from the point where the text-generation backend already returned
success with responseText; wfId abstracts the generated uuid-based id.
The try block covers both extraction and registration, so any raise from
either lands in the failure branch whose message starts with Failed to
extract workflow plan (the source appends str(e)). -/
def plan_workflow (jsonLoads : String → Except Unit Value)
    (st : Orchestrator) (wfId : String) (query : String)
    (responseText : String) : PlanOut × Orchestrator :=
  match extract_json_from_text jsonLoads responseText with
  | .error _ =>
    ({ success := false,
       error := some "Failed to extract workflow plan" }, st)
  | .ok plan =>
    match planSteps plan with
    | .error _ =>
      ({ success := false,
         error := some "Failed to extract workflow plan" }, st)
    | .ok steps =>
      match register_workflow st wfId steps
          (some [("generated", .vBool true), ("query", .vStr query)]) with
      | .error _ =>
        ({ success := false,
           error := some "Failed to extract workflow plan" }, st)
      | .ok (true, st') =>
        ({ success := true, workflowId := some wfId,
           steps := some plan }, st')
      | .ok (false, st') =>
        ({ success := false,
           error := some "Failed to register generated workflow" }, st')

/-! Helper lemmas about the dict primitives. -/

theorem aget_aset_self {α : Type} (d : List (String × α)) (k : String)
    (v : α) : aget (aset d k v) k = some v := by
  induction d with
  | nil => simp [aset, aget]
  | cons hd tl ih =>
    obtain ⟨k', v'⟩ := hd
    by_cases h : k' = k
    · subst h; simp [aset, aget]
    · simp [aset, aget, h, ih]

theorem aget_aset_ne {α : Type} (d : List (String × α)) (k k' : String)
    (v : α) (h : k' ≠ k) : aget (aset d k v) k' = aget d k' := by
  induction d with
  | nil => simp [aset, aget, Ne.symm h]
  | cons hd tl ih =>
    obtain ⟨k1, v1⟩ := hd
    by_cases h1 : k1 = k
    · subst h1
      simp [aset, aget, Ne.symm h]
    · simp [aset, aget, h1, ih]

theorem aget_map_values (params : Dict) (f : Value → Value) (k : String) :
    aget (params.map (fun kv => (kv.1, f kv.2))) k =
      (aget params k).map f := by
  induction params with
  | nil => simp [aget]
  | cons hd tl ih =>
    obtain ⟨k1, v1⟩ := hd
    by_cases h : k1 = k
    · subst h; simp [aget]
    · simp [aget, h, ih]

theorem aget_of_not_mem_keys (ps : Dict) (k : String)
    (h : k ∉ ps.map Prod.fst) : aget ps k = none := by
  induction ps with
  | nil => simp [aget]
  | cons hd tl ih =>
    obtain ⟨k1, v1⟩ := hd
    simp only [List.map_cons, List.mem_cons] at h
    push_neg at h
    simp [aget, Ne.symm h.1, ih h.2]

theorem aget_updatePairs_of_none (base ps : Dict) (k : String)
    (h : aget ps k = none) :
    aget (updatePairs base ps) k = aget base k := by
  induction ps generalizing base with
  | nil => simp [updatePairs]
  | cons hd tl ih =>
    obtain ⟨k1, v1⟩ := hd
    simp only [aget] at h
    by_cases h1 : k1 = k
    · simp [h1] at h
    · simp only [h1, if_false] at h
      have : updatePairs base ((k1, v1) :: tl) =
          updatePairs (aset base k1 v1) tl := rfl
      rw [this, ih _ h, aget_aset_ne _ _ _ _ (fun hh => h1 hh.symm)]

theorem aget_updatePairs_of_nodup (base ps : Dict) (k : String) (v : Value)
    (hnd : (ps.map Prod.fst).Nodup) (h : aget ps k = some v) :
    aget (updatePairs base ps) k = some v := by
  induction ps generalizing base with
  | nil => simp [aget] at h
  | cons hd tl ih =>
    obtain ⟨k1, v1⟩ := hd
    have hstep : updatePairs base ((k1, v1) :: tl) =
        updatePairs (aset base k1 v1) tl := rfl
    simp only [List.map_cons, List.nodup_cons] at hnd
    simp only [aget] at h
    by_cases h1 : k1 = k
    · subst h1
      rw [if_pos rfl] at h
      have hnone : aget tl k1 = none :=
        aget_of_not_mem_keys _ _ hnd.1
      rw [hstep, aget_updatePairs_of_none _ _ _ hnone, aget_aset_self, h]
    · simp only [h1, if_false] at h
      rw [hstep]
      exact ih _ hnd.2 h

/-- A string starting with the context-dot prefix cannot start with the
result-dot prefix. -/
theorem context_not_result (vp : String)
    (h : strStartsWith vp "context." = true) :
    strStartsWith vp "result." = false := by
  unfold strStartsWith at h ⊢
  have hc : "context.".toList = ['c', 'o', 'n', 't', 'e', 'x', 't', '.'] :=
    rfl
  have hr : "result.".toList = ['r', 'e', 's', 'u', 'l', 't', '.'] := rfl
  rw [hc] at h
  rw [hr]
  cases hl : vp.toList with
  | nil => rw [hl] at h; simp [List.isPrefixOf] at h
  | cons c cs =>
    rw [hl] at h
    simp only [List.isPrefixOf, List.cons_append] at h ⊢
    rcases Bool.and_eq_true_iff.mp h with ⟨hceq, _⟩
    have : c = 'c' := by
      have := beq_iff_eq.mp hceq; exact this.symm
    subst this
    simp

/-- The concrete condition of the C6 scenario. -/
def gtCountCond : Value :=
  .vDict [("type", .vStr "simple"), ("value", .vStr "context.count"),
          ("expected", .vInt 5), ("operator", .vStr "gt")]

/-- C6: condition evaluation is fail-closed.  A missing segment along a
result-rooted or context-rooted path of a simple condition makes the
whole condition evaluate to ok false (no raise); an unrecognized
condition type evaluates to ok false, as does an unrecognized operator
(for a simple condition whose value field, if present, is a string, per
the Condition data model); and the concrete gt-on-context.count scenario
evaluates true against count 6, false against count 4, and false against
the empty context. -/
theorem evaluate_condition_fail_closed :
    (∀ (c context stepResult : Dict) (vp : String),
      (aget c "type" = none ∨ aget c "type" = some (.vStr "simple")) →
      aget c "value" = some (.vStr vp) →
      ((strStartsWith vp "result." = true ∧
          walk (.vDict stepResult) (splitChar '.' (strDrop vp 7)) = none) ∨
       (strStartsWith vp "context." = true ∧
          walk (.vDict context) (splitChar '.' (strDrop vp 8)) = none)) →
      evaluate_condition (.vDict c) context stepResult = .ok false) ∧
    (∀ (c context stepResult : Dict) (t : Value),
      aget c "type" = some t → t ≠ .vStr "simple" → t ≠ .vStr "custom" →
      evaluate_condition (.vDict c) context stepResult = .ok false) ∧
    (∀ (c context stepResult : Dict) (op : Value),
      (aget c "type" = none ∨ aget c "type" = some (.vStr "simple")) →
      (aget c "value" = none ∨ ∃ s, aget c "value" = some (.vStr s)) →
      aget c "operator" = some op →
      op ≠ .vStr "eq" → op ≠ .vStr "ne" → op ≠ .vStr "gt" →
      op ≠ .vStr "lt" → op ≠ .vStr "contains" → op ≠ .vStr "exists" →
      evaluate_condition (.vDict c) context stepResult = .ok false) ∧
    (evaluate_condition gtCountCond [("count", .vInt 6)] [] = .ok true ∧
     evaluate_condition gtCountCond [("count", .vInt 4)] [] = .ok false ∧
     evaluate_condition gtCountCond [] [] = .ok false) := by
  refine ⟨?_, ?_, ?_, rfl, rfl, rfl⟩
  · intro c context stepResult vp ht hv hmiss
    have htype : (aget c "type").getD (.vStr "simple") = .vStr "simple" := by
      rcases ht with h | h <;> simp [h]
    rcases hmiss with ⟨hs, hw⟩ | ⟨hs, hw⟩
    · simp [evaluate_condition, htype, hv, hs, hw]
    · simp [evaluate_condition, htype, hv, hs, hw,
            context_not_result vp hs]
  · intro c context stepResult t ht hns hnc
    simp only [evaluate_condition, ht, Option.getD_some]
  · intro c context stepResult op ht hv hop hne1 hne2 hne3 hne4 hne5 hne6
    have htype : (aget c "type").getD (.vStr "simple") = .vStr "simple" := by
      rcases ht with h | h <;> simp [h]
    have happly : ∀ actual expected,
        apply_operator op actual expected = .ok false := by
      intro actual expected
      simp only [apply_operator]
    rcases hv with h | ⟨s, h⟩
    · simp only [evaluate_condition, htype, h, Option.getD_none, hop,
        Option.getD_some, happly,
        show strStartsWith "" "result." = false from rfl,
        show strStartsWith "" "context." = false from rfl]
      simp
    · simp only [evaluate_condition, htype, h, Option.getD_some, hop, happly]
      split
      all_goals (try split)
      all_goals (try split)
      all_goals rfl

/-- C6 witness: the fail-closed theorem applied at concrete inputs. -/
theorem evaluate_condition_fail_closed_witness :
    evaluate_condition
      (.vDict [("type", .vStr "simple"), ("value", .vStr "context.missing"),
               ("operator", .vStr "eq")]) [] [] = .ok false ∧
    evaluate_condition (.vDict [("type", .vStr "weird")]) [] [] = .ok false ∧
    evaluate_condition
      (.vDict [("value", .vStr "context.count"),
               ("operator", .vStr "between")])
      [("count", .vInt 6)] [] = .ok false :=
  ⟨evaluate_condition_fail_closed.1 _ [] [] "context.missing"
      (.inr rfl) rfl (.inr ⟨rfl, rfl⟩),
   evaluate_condition_fail_closed.2.1 _ [] [] (.vStr "weird") rfl
      (by simp) (by simp),
   evaluate_condition_fail_closed.2.2.1 _ [("count", .vInt 6)] []
      (.vStr "between") (.inl rfl) (.inr ⟨"context.count", rfl⟩) rfl
      (by simp) (by simp) (by simp) (by simp) (by simp) (by simp)⟩

/-- C10: executing a registered workflow whose step list is empty yields
success true, an empty results list, and the seeded context. -/
theorem execute_workflow_empty_steps (st : Orchestrator) (md : Dict)
    (workflowId : String) (inputData context : Option Dict) (wf : Workflow)
    (hw : aget st.workflows workflowId = some wf) (hs : wf.steps = []) :
    (execute_workflow st md workflowId inputData context).1 =
      { success := true, results := some [],
        context := some (seedContext context inputData) } := by
  simp [execute_workflow, hw, hs, runSteps]

/-- The one-agent registry shared by the concrete scenarios: a single
agent named a whose process always succeeds with no data payload. -/
def okAgent : AgentFun := fun _ => [("success", .vBool true)]

/-- Agent registry holding just okAgent under the name a. -/
def agentsA : Agents := [("a", okAgent)]

/-- Orchestrator state with one empty-step workflow registered. -/
def emptyWfSt : Orchestrator := ⟨agentsA, [("w", ⟨"w", [], []⟩)]⟩

/-- C10 witness: the empty-workflow theorem applied at concrete input. -/
theorem execute_workflow_empty_steps_witness :
    (execute_workflow emptyWfSt [] "w" (some [("q", .vInt 2)]) none).1 =
      { success := true, results := some [],
        context := some (seedContext none (some [("q", .vInt 2)])) } :=
  execute_workflow_empty_steps emptyWfSt [] "w" (some [("q", .vInt 2)])
    none ⟨"w", [], []⟩ rfl rfl

/-- Bool-level restatement of the registration validation for one step:
true exactly when the step lacks an agent or action key, or its agent
value is a string absent from the agent registry. -/
def stepRejected (ag : Agents) (sv : Value) : Bool :=
  match sv with
  | .vDict d =>
    !amem d "agent" || !amem d "action" ||
      (match aget d "agent" with
       | some (.vStr n) => !amem ag n
       | _ => false)
  | _ => false

/-- For dict steps whose agent values are strings, the validation loop
returns ok of: no step is rejected. -/
theorem validateSteps_eq (ag : Agents) (steps : List Value)
    (hwf : ∀ sv ∈ steps, ∃ d, sv = .vDict d ∧
      ∀ v, aget d "agent" = some v → ∃ n, v = .vStr n) :
    validateSteps ag steps = .ok (!steps.any (stepRejected ag)) := by
  induction steps with
  | nil => rfl
  | cons s rest ih =>
    obtain ⟨d, rfl, hag⟩ := hwf _ (List.mem_cons_self _ _)
    have ihr := ih (fun sv hsv => hwf sv (List.mem_cons_of_mem _ hsv))
    by_cases h1 : amem d "agent"
    · rcases Option.isSome_iff_exists.mp h1 with ⟨v, hv⟩
      obtain ⟨n, rfl⟩ := hag v hv
      by_cases h2 : amem d "action"
      · by_cases h3 : amem ag n
        · simp [validateSteps, stepHasKey, stepAgent, stepRejected,
                agentNameInRegistry, h1, h2, h3, hv, ihr]
        · simp [validateSteps, stepHasKey, stepAgent, stepRejected,
                agentNameInRegistry, h1, h2, h3, hv]
      · simp [validateSteps, stepHasKey, stepRejected, h1, h2]
    · simp [validateSteps, stepHasKey, stepRejected, h1]

/-- C7: register_workflow is atomic.  For step lists of dicts whose
agent values are strings (steps that name agents), the call returns ok;
the flag is false — with the registry left exactly as it was — precisely
when the id is already registered or some step lacks an agent or action
key or names an unregistered agent, and otherwise the flag is true and
exactly the new workflow is appended. -/
theorem register_workflow_atomic (st : Orchestrator) (workflowId : String)
    (steps : List Value) (metadata : Option Dict)
    (hwf : ∀ sv ∈ steps, ∃ d, sv = .vDict d ∧
      ∀ v, aget d "agent" = some v → ∃ n, v = .vStr n) :
    register_workflow st workflowId steps metadata =
      .ok (!(amem st.workflows workflowId ||
              steps.any (stepRejected st.agents)),
        if amem st.workflows workflowId ||
            steps.any (stepRejected st.agents)
        then st
        else { st with workflows := st.workflows ++
          [(workflowId,
            { id := workflowId, steps := steps,
              metadata := metadata.getD [] })] }) := by
  by_cases hid : amem st.workflows workflowId
  · simp [register_workflow, hid]
  · rw [register_workflow]
    simp only [hid, Bool.false_eq_true, if_false, Bool.false_or,
      validateSteps_eq st.agents steps hwf]
    by_cases hany : steps.any (stepRejected st.agents) <;> simp [hany]

/-- C7 witness: a fresh id with one well-formed step on a registered
agent is accepted and appended verbatim. -/
theorem register_workflow_atomic_witness :
    register_workflow ⟨agentsA, []⟩ "w"
        [.vDict [("agent", .vStr "a"), ("action", .vStr "x")]] none =
      .ok (true, ⟨agentsA,
        [("w", ⟨"w", [.vDict [("agent", .vStr "a"), ("action", .vStr "x")]],
          []⟩)]⟩) := by
  have h := register_workflow_atomic ⟨agentsA, []⟩ "w"
    [.vDict [("agent", .vStr "a"), ("action", .vStr "x")]] none ?hwf
  · exact h
  case hwf =>
    intro sv hsv
    simp only [List.mem_singleton] at hsv
    subst hsv
    refine ⟨_, rfl, ?_⟩
    intro v hv
    cases hv
    exact ⟨"a", rfl⟩

/-- C8: workflow-plan extraction.  With both a first bracket and a last
bracket present, the slice between them (Python text from a to b
inclusive) is handed to json.loads; with no bracket pair, a brace pair is
sliced, parsed and wrapped in a one-element list; with neither pair the
extraction raises; and whenever extraction raises — no pair, or the
parser failing on the slice — plan_workflow returns a failure whose
error message is the extract-workflow-plan message and leaves the
workflow registry untouched. -/
theorem plan_extraction (jsonLoads : String → Except Unit Value) :
    (∀ (text : String) (a b : Nat),
      firstIdx '[' text = some a → lastIdx ']' text = some b →
      extract_json_from_text jsonLoads text = jsonLoads (pySlice text a b)) ∧
    (∀ (text : String) (a b : Nat),
      (firstIdx '[' text = none ∨ lastIdx ']' text = none) →
      firstIdx '\x7b' text = some a → lastIdx '\x7d' text = some b →
      extract_json_from_text jsonLoads text =
        (jsonLoads (pySlice text a b)).map (fun v => .vList [v])) ∧
    (∀ text : String,
      (firstIdx '[' text = none ∨ lastIdx ']' text = none) →
      (firstIdx '\x7b' text = none ∨ lastIdx '\x7d' text = none) →
      extract_json_from_text jsonLoads text = .error ()) ∧
    (∀ (st : Orchestrator) (wfId query text : String),
      extract_json_from_text jsonLoads text = .error () →
      plan_workflow jsonLoads st wfId query text =
        ({ success := false,
           error := some "Failed to extract workflow plan" }, st)) := by
  refine ⟨?_, ?_, ?_, ?_⟩
  · intro text a b h1 h2
    simp [extract_json_from_text, h1, h2]
  · intro text a b h h1 h2
    rcases h with h | h <;>
      simp [extract_json_from_text, h, h1, h2]
  · intro text hb hc
    rcases hb with hb | hb <;> rcases hc with hc | hc <;>
      simp [extract_json_from_text, hb, hc]
  · intro st wfId query text h
    simp [plan_workflow, h]

/-- C8 witness: text holding no json block fails extraction, and the
planner reports it and registers nothing. -/
theorem plan_extraction_witness :
    extract_json_from_text (fun _ => .error ()) "no json here" =
      .error () ∧
    plan_workflow (fun _ => .error ()) ⟨agentsA, []⟩ "gen1" "q"
        "no json here" =
      ({ success := false,
         error := some "Failed to extract workflow plan" },
       ⟨agentsA, []⟩) :=
  ⟨(plan_extraction (fun _ => .error ())).2.2.1 "no json here"
      (.inl rfl) (.inl rfl),
   (plan_extraction (fun _ => .error ())).2.2.2 ⟨agentsA, []⟩ "gen1" "q"
      "no json here"
      ((plan_extraction (fun _ => .error ())).2.2.1 "no json here"
        (.inl rfl) (.inl rfl))⟩

/-- C1 amended: on every run that completes without an internal error,
the outcome's success flag equals the truthiness-AND of the success
fields over the recorded results; a run that errors (workflow missing or
an exception mid-execution) reports success false regardless of the
partial trace. -/
theorem execute_workflow_success_eq_trace_and (st : Orchestrator)
    (md : Dict) (workflowId : String) (inputData context : Option Dict) :
    ((execute_workflow st md workflowId inputData context).1.error = none →
      (execute_workflow st md workflowId inputData context).1.success =
        (((execute_workflow st md workflowId inputData
            context).1.results).getD []).all
          (fun e => truthy ((aget e "success").getD .vNull))) ∧
    ((execute_workflow st md workflowId inputData context).1.error ≠
        none →
      (execute_workflow st md workflowId inputData context).1.success =
        false) := by
  cases h : aget st.workflows workflowId with
  | none => simp [execute_workflow, h]
  | some wf =>
    by_cases he : (runSteps st.agents md wf.steps 0
        (seedContext context inputData)).errored
    · simp [execute_workflow, h, he]
    · simp [execute_workflow, h, he]

/-- C1 witness: the amended aggregate equation at a concrete error-free
run. -/
theorem execute_workflow_success_eq_trace_and_witness :
    (execute_workflow emptyWfSt [] "w" none none).1.success =
      (((execute_workflow emptyWfSt [] "w" none none).1.results).getD
        []).all (fun e => truthy ((aget e "success").getD .vNull)) :=
  (execute_workflow_success_eq_trace_and emptyWfSt [] "w" none none).1 rfl

/-- A registered step whose parameters value is not a dict: validation
at registration never inspects parameters, but execution raises at
params.items(). -/
def badParamsStep : Value :=
  .vDict [("agent", .vStr "a"), ("action", .vStr "x"),
          ("parameters", .vInt 5)]

/-- State holding the bad-parameters workflow. -/
def badParamsSt : Orchestrator :=
  ⟨agentsA, [("w", ⟨"w", [badParamsStep], []⟩)]⟩

/-- C1 counterexample: a registered workflow for which the returned
success flag (false, from the exception wrapper) differs from the AND
over the entries of its results list (vacuously true over the empty
trace). -/
theorem execute_workflow_success_ne_trace_and_cx :
    register_workflow ⟨agentsA, []⟩ "w" [badParamsStep] none =
      .ok (true, badParamsSt) ∧
    (execute_workflow badParamsSt [] "w" none none).1.success = false ∧
    (execute_workflow badParamsSt [] "w" none none).1.results =
      some [] ∧
    (([] : List Dict).all
      (fun e => truthy ((aget e "success").getD .vNull)) = true) :=
  ⟨rfl, rfl, rfl, rfl⟩

/-- C2 amended: with a string output_key declared, a truthy success
stores the result's data payload — defaulting to an empty dict, not the
whole result, when the data field is absent — and a falsy success leaves
the context untouched. -/
theorem context_update_stores_data (s resp ctx : Dict) (k : String)
    (h : aget s "output_key" = some (.vStr k)) :
    applyOutputKey s resp ctx =
      .ok (if truthy ((aget resp "success").getD (.vBool false))
        then aset ctx k ((aget resp "data").getD (.vDict []))
        else ctx) := by
  have hm : amem s "output_key" = true := by simp [amem, h]
  by_cases ht : truthy ((aget resp "success").getD (.vBool false)) <;>
    simp [applyOutputKey, hm, h, ht]

/-- C2 witness: the amended context-update equation at concrete inputs,
one success and one failure. -/
theorem context_update_stores_data_witness :
    applyOutputKey [("output_key", .vStr "k")] [("success", .vBool true)]
        [] = .ok [("k", .vDict [])] ∧
    applyOutputKey [("output_key", .vStr "k")] [("success", .vBool false)]
        [] = .ok [] :=
  ⟨context_update_stores_data _ _ _ "k" rfl,
   context_update_stores_data _ _ _ "k" rfl⟩

/-- State holding a one-step workflow whose agent result has no data
field and which declares an output_key. -/
def noDataSt : Orchestrator :=
  ⟨agentsA, [("w", ⟨"w", [.vDict [("agent", .vStr "a"),
    ("action", .vStr "x"), ("output_key", .vStr "k")]], []⟩)]⟩

/-- C2 counterexample: a successful step result with no data field
stores an empty dict under output_key, not the whole result object the
claim requires. -/
theorem context_update_not_whole_result_cx :
    (execute_workflow noDataSt [] "w" none none).1.context =
      some [("k", .vDict [])] ∧
    (execute_workflow noDataSt [] "w" none none).1.results =
      some [stepEntry 0 (.vStr "a") (.vStr "x") (.vBool true)
        [("success", .vBool true), ("_metadata", .vDict [])]] ∧
    Value.vDict [] ≠
      Value.vDict [("success", .vBool true), ("_metadata", .vDict [])] :=
  ⟨rfl, rfl, by simp⟩

/-- One loop iteration preserves the step object except possibly an
in-place rewrite of its parameters entry. -/
def stepFrame (old new : Value) : Prop :=
  new = old ∨
    ∃ d rp, old = .vDict d ∧ new = .vDict (aset d "parameters" rp)

theorem prepareStep_frame (ctx s : Dict) (av acv : Value) (s' req : Dict)
    (h : prepareStep ctx s = .ok (av, acv, s', req)) :
    s' = s ∨ ∃ rp, s' = aset s "parameters" rp := by
  unfold prepareStep at h
  split at h
  · exact absurd h (by simp)
  · split at h
    · exact absurd h (by simp)
    · split at h
      · simp only [Except.ok.injEq, Prod.mk.injEq] at h
        exact .inl h.2.2.1.symm
      · simp only [Except.ok.injEq, Prod.mk.injEq] at h
        exact .inr ⟨_, h.2.2.1.symm⟩
      · exact absurd h (by simp)

theorem execStep_frame (ag : Agents) (md ctx : Dict) (i : Nat)
    (sv : Value) : stepFrame sv (execStep ag md ctx i sv).newStep := by
  cases sv with
  | vDict s =>
    cases hp : prepareStep ctx s with
    | error e => simp only [execStep, hp]; exact .inl rfl
    | ok t =>
      obtain ⟨av, acv, s', req⟩ := t
      have hgoal : stepFrame (.vDict s) (.vDict s') := by
        rcases prepareStep_frame ctx s av acv s' req hp with rfl | ⟨rp, hrp⟩
        · exact .inl rfl
        · exact .inr ⟨s, rp, rfl, by rw [hrp]⟩
      cases he : execute_agent ag md av req with
      | error e => simp only [execStep, hp, he]; exact hgoal
      | ok resp =>
        cases ho : applyOutputKey s' resp ctx with
        | error e => simp only [execStep, hp, he, ho]; exact hgoal
        | ok ctx' =>
          cases hv : stepVerdict s' ctx' resp
              ((aget resp "success").getD (.vBool false)) with
          | error e => simp only [execStep, hp, he, ho, hv]; exact hgoal
          | ok halt =>
            cases halt <;> simp only [execStep, hp, he, ho, hv] <;>
              exact hgoal
  | vNull => exact .inl rfl
  | vBool b => exact .inl rfl
  | vInt n => exact .inl rfl
  | vStr str => exact .inl rfl
  | vList xs => exact .inl rfl

theorem runSteps_frame (ag : Agents) (md : Dict) (steps : List Value)
    (i : Nat) (ctx : Dict) :
    List.Forall₂ stepFrame steps (runSteps ag md steps i ctx).steps := by
  induction steps generalizing i ctx with
  | nil => simp [runSteps]
  | cons s rest ih =>
    have hs := execStep_frame ag md ctx i s
    have hrefl : List.Forall₂ stepFrame rest rest :=
      List.forall₂_same.mpr (fun x _ => .inl rfl)
    simp only [runSteps]
    cases ho : (execStep ag md ctx i s).outcome with
    | err => exact List.Forall₂.cons hs hrefl
    | term => exact List.Forall₂.cons hs hrefl
    | cont => exact List.Forall₂.cons hs (ih _ _)

/-- C3 amended: execute_workflow adds and removes no workflows and
leaves every other workflow's registry entry unchanged; the executed
workflow keeps its id, metadata and step count, and each of its steps is
unchanged except that its parameters entry may have been overwritten in
place by template resolution. -/
theorem execute_workflow_registry_frame (st : Orchestrator) (md : Dict)
    (workflowId : String) (inputData context : Option Dict) :
    (∀ k, k ≠ workflowId →
      aget (execute_workflow st md workflowId inputData
        context).2.workflows k = aget st.workflows k) ∧
    (∀ wf, aget st.workflows workflowId = some wf →
      ∃ wf', aget (execute_workflow st md workflowId inputData
          context).2.workflows workflowId = some wf' ∧
        wf'.id = wf.id ∧ wf'.metadata = wf.metadata ∧
        List.Forall₂ stepFrame wf.steps wf'.steps) ∧
    (aget st.workflows workflowId = none →
      (execute_workflow st md workflowId inputData context).2 = st) := by
  cases h : aget st.workflows workflowId with
  | none =>
    refine ⟨?_, ?_, ?_⟩
    · intro k hk; simp [execute_workflow, h]
    · intro wf hwf; exact absurd hwf (by simp)
    · intro hnone; simp [execute_workflow, h]
  | some wf0 =>
    have hframe := runSteps_frame st.agents md wf0.steps 0
      (seedContext context inputData)
    refine ⟨?_, ?_, ?_⟩
    · intro k hk
      by_cases he : (runSteps st.agents md wf0.steps 0
          (seedContext context inputData)).errored <;>
        simp [execute_workflow, h, he, aget_aset_ne _ _ _ _ hk]
    · intro wf hwf
      rw [Option.some.injEq] at hwf
      subst hwf
      refine ⟨{ wf0 with steps := (runSteps st.agents md wf0.steps 0
          (seedContext context inputData)).steps }, ?_, rfl, rfl, hframe⟩
      by_cases he : (runSteps st.agents md wf0.steps 0
          (seedContext context inputData)).errored <;>
        simp [execute_workflow, h, he, aget_aset_self]
    · intro hnone; exact absurd hnone (by simp)

/-- C3 amended witness: frame facts at a concrete run. -/
theorem execute_workflow_registry_frame_witness :
    aget (execute_workflow emptyWfSt [] "w" none
      none).2.workflows "other" = aget emptyWfSt.workflows "other" ∧
    (execute_workflow emptyWfSt [] "w2" none none).2 = emptyWfSt :=
  ⟨(execute_workflow_registry_frame emptyWfSt [] "w" none none).1
      "other" (by decide),
   (execute_workflow_registry_frame emptyWfSt [] "w2" none
      none).2.2 rfl⟩

/-- A registered step carrying a dollar-brace input template in its
parameters. -/
def tmplStep : Value :=
  .vDict [("agent", .vStr "a"), ("action", .vStr "x"),
          ("parameters", .vDict [("p", .vStr "$\x7binput\x7d")])]

/-- State holding the template workflow. -/
def tmplSt : Orchestrator := ⟨agentsA, [("w", ⟨"w", [tmplStep], []⟩)]⟩

/-- The same step after execution with seeded input: the parameter p was
overwritten in place with the resolved input dict. -/
def tmplStepMut : Value :=
  .vDict [("agent", .vStr "a"), ("action", .vStr "x"),
          ("parameters", .vDict [("p", .vDict [("x", .vInt 1)])])]

/-- C3 counterexample: executing a registered workflow rewrites the step
list stored in the registry — the step's parameters map is mutated in
place by template resolution, so the stored steps no longer equal the
registered ones. -/
theorem workflow_not_immutable_cx :
    register_workflow ⟨agentsA, []⟩ "w" [tmplStep] none =
      .ok (true, tmplSt) ∧
    (aget (execute_workflow tmplSt [] "w" (some [("x", .vInt 1)])
        none).2.workflows "w").map Workflow.steps = some [tmplStepMut] ∧
    tmplStepMut ≠ tmplStep :=
  ⟨rfl, rfl, by simp [tmplStepMut, tmplStep]⟩

/-- A dollar-brace template whose path misses both as a direct context
key and as a nested walk resolves to itself. -/
theorem resolve_template_unresolved (ctx : Dict) (tv : String)
    (hb : strStartsWith tv "$\x7b" = true)
    (he : strEndsWith tv "\x7d" = true)
    (hdirect : aget ctx (strDropLast (strDrop tv 2)) = none)
    (hwalk : walk (.vDict ctx)
      (splitChar '.' (strDropLast (strDrop tv 2))) = none) :
    resolve_template ctx (.vStr tv) = .vStr tv := by
  simp only [resolve_template, hb, he, Bool.and_self, if_true, hdirect,
    hwalk]
  split <;> rfl

/-- C4: a parameter value that is an unresolvable dollar-brace template
(the direct context key is absent, and the dotted walk — which for a
dot-free path coincides with the direct lookup — misses) reaches the
dispatched request unchanged, and the step is still dispatched to its
agent, its recorded success coming from the agent's response rather than
being forced to failure. -/
theorem template_passthrough (ag : Agents) (md ctx : Dict) (i : Nat)
    (s params : Dict) (an : String) (acv : Value) (k tv : String)
    (hA : aget s "agent" = some (.vStr an))
    (hAct : aget s "action" = some acv)
    (hP : aget s "parameters" = some (.vDict params))
    (hnd : (params.map Prod.fst).Nodup)
    (hk : aget params k = some (.vStr tv))
    (hb : strStartsWith tv "$\x7b" = true)
    (he : strEndsWith tv "\x7d" = true)
    (hdirect : aget ctx (strDropLast (strDrop tv 2)) = none)
    (hwalk : walk (.vDict ctx)
      (splitChar '.' (strDropLast (strDrop tv 2))) = none) :
    prepareStep ctx s = .ok (.vStr an, acv,
      aset s "parameters"
        (.vDict (params.map (fun kv => (kv.1, resolve_template ctx kv.2)))),
      updatePairs [("action", acv)]
        (params.map (fun kv => (kv.1, resolve_template ctx kv.2)))) ∧
    aget (updatePairs [("action", acv)]
        (params.map (fun kv => (kv.1, resolve_template ctx kv.2)))) k =
      some (.vStr tv) ∧
    (∀ f, aget ag an = some f →
      (execStep ag md ctx i (.vDict s)).entry =
        some (stepEntry i (.vStr an) acv
          ((aget (agent_response f md an
              (updatePairs [("action", acv)] (params.map
                (fun kv => (kv.1, resolve_template ctx kv.2)))))
            "success").getD (.vBool false))
          (agent_response f md an
            (updatePairs [("action", acv)] (params.map
              (fun kv => (kv.1, resolve_template ctx kv.2))))))) := by
  have hres : resolve_template ctx (.vStr tv) = .vStr tv :=
    resolve_template_unresolved ctx tv hb he hdirect hwalk
  have hprep : prepareStep ctx s = .ok (.vStr an, acv,
      aset s "parameters"
        (.vDict (params.map (fun kv => (kv.1, resolve_template ctx kv.2)))),
      updatePairs [("action", acv)]
        (params.map (fun kv => (kv.1, resolve_template ctx kv.2)))) := by
    simp [prepareStep, hA, hAct, hP]
  have hndm : ((params.map (fun kv => (kv.1, resolve_template ctx
      kv.2))).map Prod.fst).Nodup := by
    have : (params.map (fun kv => (kv.1, resolve_template ctx
        kv.2))).map Prod.fst = params.map Prod.fst := by
      simp
    rw [this]; exact hnd
  have hmapk : aget (params.map (fun kv =>
      (kv.1, resolve_template ctx kv.2))) k = some (.vStr tv) := by
    rw [aget_map_values, hk]
    simp [hres]
  have hup : aget (updatePairs [("action", acv)] (params.map (fun kv =>
      (kv.1, resolve_template ctx kv.2)))) k = some (.vStr tv) :=
    aget_updatePairs_of_nodup _ _ _ _ hndm hmapk
  refine ⟨hprep, hup, ?_⟩
  intro f hf
  have hexec : execute_agent ag md (.vStr an)
      (updatePairs [("action", acv)] (params.map (fun kv =>
        (kv.1, resolve_template ctx kv.2)))) =
      .ok (agent_response f md an (updatePairs [("action", acv)]
        (params.map (fun kv => (kv.1, resolve_template ctx kv.2))))) := by
    simp [execute_agent, hf]
  cases ho : applyOutputKey (aset s "parameters"
      (.vDict (params.map (fun kv => (kv.1, resolve_template ctx kv.2)))))
      (agent_response f md an (updatePairs [("action", acv)]
        (params.map (fun kv => (kv.1, resolve_template ctx kv.2))))) ctx
      with
  | error e => simp only [execStep, hprep, hexec, ho]
  | ok ctx' =>
    cases hv : stepVerdict (aset s "parameters"
        (.vDict (params.map (fun kv => (kv.1, resolve_template ctx
          kv.2))))) ctx'
        (agent_response f md an (updatePairs [("action", acv)]
          (params.map (fun kv => (kv.1, resolve_template ctx kv.2)))))
        ((aget (agent_response f md an (updatePairs [("action", acv)]
          (params.map (fun kv => (kv.1, resolve_template ctx kv.2)))))
          "success").getD (.vBool false)) with
    | error e => simp only [execStep, hprep, hexec, ho, hv]
    | ok halt =>
      cases halt <;> simp only [execStep, hprep, hexec, ho, hv]

/-- C4 witness: the pass-through theorem at a concrete step whose
parameter p holds an unresolvable context.input template. -/
theorem template_passthrough_witness :
    aget (updatePairs [("action", .vStr "x")]
        ([("p", .vStr "$\x7bcontext.input\x7d")].map
          (fun kv => (kv.1, resolve_template [] kv.2)))) "p" =
      some (.vStr "$\x7bcontext.input\x7d") :=
  (template_passthrough agentsA [] [] 0
    [("agent", .vStr "a"), ("action", .vStr "x"),
     ("parameters", .vDict [("p", .vStr "$\x7bcontext.input\x7d")])]
    [("p", .vStr "$\x7bcontext.input\x7d")] "a" (.vStr "x") "p"
    "$\x7bcontext.input\x7d" rfl rfl rfl (by simp) rfl rfl rfl rfl
    rfl).2.1

/-- An absent on_failure, or one equal to the string terminate, makes
the step's on_failure test succeed. -/
theorem onFailureTerminate_of_default (s : Dict)
    (hOF : aget s "on_failure" = none ∨
           aget s "on_failure" = some (.vStr "terminate")) :
    onFailureTerminate s = true := by
  rcases hOF with h | h <;> (unfold onFailureTerminate; rw [h]; rfl)

/-- C5: when a step's declared condition evaluates to false and its
on_failure is terminate (or absent, the default), the loop breaks: the
run's trace holds exactly that step's entry (entries recorded before it
are concatenated in front by the caller and stand untouched), no later
step contributes an entry or runs, and the remaining step list is left
as it was. -/
theorem condition_false_terminates (ag : Agents) (md ctx : Dict)
    (i : Nat) (rest : List Value) (s s' req : Dict) (av acv : Value)
    (resp ctx2 : Dict) (c : Value)
    (hPrep : prepareStep ctx s = .ok (av, acv, s', req))
    (hAgent : execute_agent ag md av req = .ok resp)
    (hCtx : applyOutputKey s' resp ctx = .ok ctx2)
    (hCond : aget s' "condition" = some c)
    (hEval : evaluate_condition c ctx2 resp = .ok false)
    (hOF : aget s' "on_failure" = none ∨
           aget s' "on_failure" = some (.vStr "terminate")) :
    runSteps ag md (.vDict s :: rest) i ctx =
      ⟨[stepEntry i av acv ((aget resp "success").getD (.vBool false))
          resp], ctx2, .vDict s' :: rest, false⟩ := by
  have hterm := onFailureTerminate_of_default s' hOF
  have hv : stepVerdict s' ctx2 resp
      ((aget resp "success").getD (.vBool false)) = .ok true := by
    simp [stepVerdict, hCond, hEval, hterm]
  simp [runSteps, execStep, hPrep, hAgent, hCtx, hv]

/-- The concrete step of the C5 scenario: a successful agent call gated
by an exists condition on the absent context key flag. -/
def condStep : Dict :=
  [("agent", .vStr "a"), ("action", .vStr "x"),
   ("condition", .vDict [("type", .vStr "simple"),
     ("value", .vStr "context.flag"), ("operator", .vStr "exists")])]

/-- C5 witness: with the condition evaluating false and on_failure
absent, a trailing second step is never run and contributes no entry. -/
theorem condition_false_terminates_witness :
    runSteps agentsA [] (.vDict condStep ::
        [.vDict [("agent", .vStr "a"), ("action", .vStr "y")]]) 0 [] =
      ⟨[stepEntry 0 (.vStr "a") (.vStr "x") (.vBool true)
          [("success", .vBool true), ("_metadata", .vDict [])]], [],
       .vDict condStep ::
         [.vDict [("agent", .vStr "a"), ("action", .vStr "y")]],
       false⟩ :=
  condition_false_terminates agentsA [] [] 0
    [.vDict [("agent", .vStr "a"), ("action", .vStr "y")]]
    condStep condStep [("action", .vStr "x")] (.vStr "a") (.vStr "x")
    [("success", .vBool true), ("_metadata", .vDict [])] []
    (.vDict [("type", .vStr "simple"), ("value", .vStr "context.flag"),
      ("operator", .vStr "exists")])
    rfl rfl rfl rfl rfl (.inl rfl)

/-- The response of a registered agent keeps (the absence of) its
success field through the metadata merge of execute_agent: a response
with no success key yields the falsy default. -/
theorem agent_response_success_default (f : AgentFun) (md req : Dict)
    (an : String)
    (h : aget (f (aset req "_metadata" (.vDict md))) "success" = none) :
    (aget (agent_response f md an req) "success").getD (.vBool false) =
      .vBool false := by
  simp only [agent_response]
  cases hm : aget (f (aset req "_metadata" (.vDict md))) "_metadata" with
  | none =>
    simp only [hm]
    rw [aget_aset_ne _ _ _ _
      (show "success" ≠ "_metadata" by decide), h]
    rfl
  | some m =>
    cases m <;> simp only [hm] <;>
      first
        | rfl
        | (rw [aget_aset_ne _ _ _ _
            (show "success" ≠ "_metadata" by decide), h]; rfl)

/-- C9: a dispatched agent whose process returns a dict with no success
key at all yields a trace entry with success false, leaves the context
untouched, and — the step's on_failure being absent or terminate — no
further step runs: the loop output holds exactly that entry and the
untouched remaining steps (errored only when a declared condition itself
raises). -/
theorem missing_success_terminates (ag : Agents) (md ctx : Dict)
    (i : Nat) (rest : List Value) (s s' req : Dict) (acv : Value)
    (an : String) (f : AgentFun)
    (hPrep : prepareStep ctx s = .ok (.vStr an, acv, s', req))
    (hf : aget ag an = some f)
    (hresp : aget (f (aset req "_metadata" (.vDict md))) "success" = none)
    (hOF : aget s' "on_failure" = none ∨
           aget s' "on_failure" = some (.vStr "terminate")) :
    execute_agent ag md (.vStr an) req =
      .ok (agent_response f md an req) ∧
    ∃ errored : Bool,
      runSteps ag md (.vDict s :: rest) i ctx =
        ⟨[stepEntry i (.vStr an) acv (.vBool false)
            (agent_response f md an req)], ctx, .vDict s' :: rest,
         errored⟩ := by
  have hterm := onFailureTerminate_of_default s' hOF
  have hsucc := agent_response_success_default f md req an hresp
  have hexec : execute_agent ag md (.vStr an) req =
      .ok (agent_response f md an req) := by
    simp [execute_agent, hf]
  have hctx : applyOutputKey s' (agent_response f md an req) ctx =
      .ok ctx := by
    simp [applyOutputKey, hsucc, truthy]
  refine ⟨hexec, ?_⟩
  cases hc : aget s' "condition" with
  | none =>
    refine ⟨false, ?_⟩
    have hv : stepVerdict s' ctx (agent_response f md an req)
        (.vBool false) = .ok true := by
      simp [stepVerdict, hc, hterm, truthy]
    simp [runSteps, execStep, hPrep, hexec, hctx, hv, hsucc]
  | some c =>
    cases hev : evaluate_condition c ctx (agent_response f md an req) with
    | error e =>
      refine ⟨true, ?_⟩
      have hv : stepVerdict s' ctx (agent_response f md an req)
          (.vBool false) = .error e := by
        simp [stepVerdict, hc, hev]
      simp [runSteps, execStep, hPrep, hexec, hctx, hv, hsucc]
    | ok b =>
      refine ⟨false, ?_⟩
      have hv : stepVerdict s' ctx (agent_response f md an req)
          (.vBool false) = .ok true := by
        cases b <;> simp [stepVerdict, hc, hev, hterm, truthy]
      simp [runSteps, execStep, hPrep, hexec, hctx, hv, hsucc]

/-- An agent whose response carries no success key. -/
def noSuccessAgent : AgentFun := fun _ => [("data", .vStr "payload")]

/-- Registry holding noSuccessAgent under the name b. -/
def agentsB : Agents := [("b", noSuccessAgent)]

/-- C9 witness: a success-less response records success false, writes
nothing, and stops the run before a trailing step. -/
theorem missing_success_terminates_witness :
    ∃ errored : Bool,
      runSteps agentsB [] (.vDict [("agent", .vStr "b"),
          ("action", .vStr "x"), ("output_key", .vStr "k")] ::
          [.vDict [("agent", .vStr "b"), ("action", .vStr "y")]]) 0 [] =
        ⟨[stepEntry 0 (.vStr "b") (.vStr "x") (.vBool false)
            (agent_response noSuccessAgent [] "b"
              [("action", .vStr "x")])],
         [], .vDict [("agent", .vStr "b"), ("action", .vStr "x"),
          ("output_key", .vStr "k")] ::
            [.vDict [("agent", .vStr "b"), ("action", .vStr "y")]],
         errored⟩ :=
  (missing_success_terminates agentsB [] [] 0
      [.vDict [("agent", .vStr "b"), ("action", .vStr "y")]]
      [("agent", .vStr "b"), ("action", .vStr "x"),
       ("output_key", .vStr "k")]
      [("agent", .vStr "b"), ("action", .vStr "x"),
       ("output_key", .vStr "k")]
      [("action", .vStr "x")] (.vStr "x") "b" noSuccessAgent
      rfl rfl rfl (.inl rfl)).2

end Ape

